import Mathlib

/-!
Shallow embedding of `gfx-mesh` (`src/mesh.rs`), the mesh building and
binding subsystem: vertex/index buffers, the compatibility matcher
(`is_compatible`, `find_compatible_buffer`), `Mesh::bind`, `Bind::draw`,
`MeshBuilder::build`, `MeshBuilder::set_indices` and `Mesh::dispose`.

Modelling conventions:
* GPU buffer handles are identified by natural numbers (`bufferId`); the
  external resource factory is modelled as a response script
  `Nat → Option ε` giving, for the n-th factory call, `none` on success or
  `some e` when that call fails with error `e`.  A successful
  `create_buffer` call returns a fresh handle equal to its call number.
* Machine integers are `Nat` with explicit `% 2 ^ w` at the points where
  the source performs an `as` cast (`as VertexCount`/`as IndexCount` are
  `u32` casts, the `create_buffer` size argument is a `u64` cast).
* `debug_assert!` statements compile out of release builds and are treated
  per the spec as caller-enforced preconditions; the unconditional
  `assert!` on vertex-count agreement in `Mesh::bind` is modelled as an
  explicit `panicked` outcome.
* Rust panics/aborts are explicit constructors of the result types.
-/

namespace GfxMesh

/-- Modelled from the spec: `vertex::Attribute` (file `vertex.rs` is not in
`src/`).  One named, typed field within a vertex: semantic identity,
element format and byte offset; equality is exact on all three fields. -/
structure Attribute where
  identity : Nat
  elemFormat : Nat
  offset : Nat
  deriving DecidableEq

/-- Modelled from the spec: `vertex::VertexFormat` (file `vertex.rs` is not
in `src/`).  Stride in bytes per vertex plus an attribute list sorted
ascending by byte offset with unique offsets. -/
structure VertexFormat where
  stride : Nat
  attributes : List Attribute
  deriving DecidableEq

/-- Strict ordering of attributes by byte offset; `Pairwise offLt`
expresses the sorted-with-unique-offsets invariant of a `VertexFormat`. -/
abbrev offLt (a b : Attribute) : Prop := a.offset < b.offset

/-- Embeds `hal::IndexType`: width of one index element, `u16` or `u32`. -/
inductive IndexType where
  | u16
  | u32
  deriving DecidableEq

/-- Byte width of an index element, `size_of::<u16>()` or
`size_of::<u32>()` as matched in `MeshBuilder::build`. -/
def indexWidth : IndexType → Nat
  | .u16 => 2
  | .u32 => 4

/-- Embeds `hal::Primitive` (the variants used by this crate). -/
inductive Primitive where
  | pointList
  | lineList
  | lineStrip
  | triangleList
  | triangleStrip
  deriving DecidableEq

/-- Embeds `mesh::VertexBuffer<B>`: an owned GPU buffer handle tagged with
its vertex format and vertex count (`len`). -/
structure VertexBuffer where
  bufferId : Nat
  format : VertexFormat
  len : Nat
  deriving DecidableEq

/-- Embeds `mesh::IndexBuffer<B>`: an owned GPU buffer handle tagged with
its index type and index count (`len`). -/
structure IndexBuffer where
  bufferId : Nat
  index_type : IndexType
  len : Nat
  deriving DecidableEq

/-- Embeds `mesh::Mesh<B>`: vertex buffers (kept sorted by format), an
optional index buffer, and a primitive topology. -/
structure Mesh where
  vbufs : List VertexBuffer
  ibuf : Option IndexBuffer
  prim : Primitive
  deriving DecidableEq

/-- Default vertex buffer used as the (never reached) out-of-bounds value
of `List.getD`; Rust slice indexing in `bind` is in bounds whenever the
index returned by `find_compatible_buffer` is used. -/
def vbDefault : VertexBuffer := ⟨0, ⟨0, []⟩, 0⟩

/-- Embeds Rust's `Iterator::position`: index of the first element
satisfying `p`, or `none`. -/
def position (p : α → Bool) : List α → Option Nat
  | [] => none
  | x :: xs => if p x then some 0 else (position p xs).map (· + 1)

/-- Embeds the scan loop of `is_compatible` (mesh.rs lines 373-383): for
each attribute `r` of `right` in order, find the first element of
`left.attributes[skip..]` equal to `r`; on a hit at relative position `p`
advance `skip` by `p` (not `p + 1`) and continue, otherwise fail. -/
def compatLoop (ls : List Attribute) : Nat → List Attribute → Bool
  | _, [] => true
  | skip, r :: rs =>
    match position (fun l => decide (l = r)) (ls.drop skip) with
    | none => false
    | some p => compatLoop ls (skip + p) rs

/-- Embeds `mesh::is_compatible`: `left` serves `right` iff strides are
equal and every attribute of `right` is found by the forward scan. -/
def is_compatible (left right : VertexFormat) : Bool :=
  if left.stride ≠ right.stride then false
  else compatLoop left.attributes 0 right.attributes

/-- Embeds `mesh::find_compatible_buffer`: index (relative to the slice
passed in) of the first vertex buffer whose format is compatible with the
requested format. -/
def find_compatible_buffer (vbufs : List VertexBuffer) (format : VertexFormat) : Option Nat :=
  position (fun vbuf => is_compatible vbuf.format format) vbufs

/-- Embeds `hal::buffer::IndexBufferView`: buffer handle, byte offset and
index type, as constructed by `Mesh::bind`. -/
structure IndexBufferView where
  buffer : Nat
  offset : Nat
  index_type : IndexType
  deriving DecidableEq

/-- Embeds `mesh::Bind`: result of a successful binding, either indexed
(carrying the index view and index count) or unindexed (vertex count). -/
inductive Bind where
  | indexed (index : IndexBufferView) (count : Nat)
  | unindexed (count : Nat)
  deriving DecidableEq

/-- Outcome of the format loop inside `Mesh::bind`: the `assert!` panic, an
early `Err(Incompatible)` return (carrying the binding set as mutated so
far), or normal loop exit with the binding set and last vertex count. -/
inductive LoopResult where
  | panicked
  | incompatible (set : List (Nat × Nat))
  | finished (set : List (Nat × Nat)) (vc : Option Nat)
  deriving DecidableEq

/-- Outcome of `Mesh::bind`: the `assert!` panic, `Err(Incompatible)`, or
`Ok` with the final binding set and the `Bind` value. -/
inductive BindResult where
  | panicked
  | incompatible (set : List (Nat × Nat))
  | ok (set : List (Nat × Nat)) (b : Bind)
  deriving DecidableEq

/-- Embeds the `for format in formats` loop of `Mesh::bind` (mesh.rs lines
263-276), faithfully keeping the source's indexing: the index returned by
`find_compatible_buffer` over the window `vbufs[next..]` is window-relative
but is used as an absolute index into `vbufs` (`self.vbufs[index]`), and
`next` is set to `index + 1`.  The binding-set push happens before the
vertex-count `assert!`. -/
def bindLoop (vbufs : List VertexBuffer) : List VertexFormat → Nat → Option Nat → List (Nat × Nat) → LoopResult
  | [], _, vc, set => .finished set vc
  | f :: rest, next, vc, set =>
    match find_compatible_buffer (vbufs.drop next) f with
    | none => .incompatible set
    | some index =>
      let vb := vbufs.getD index vbDefault
      let set2 := set ++ [(vb.bufferId, 0)]
      if vc = none ∨ vc = some vb.len then
        bindLoop vbufs rest (index + 1) (some vb.len) set2
      else
        .panicked

/-- Embeds `Mesh::bind`: run the format loop starting with window position
0, no recorded vertex count and the caller-supplied binding set; wrap the
result as `Indexed` (when the mesh has an index buffer, with zero view
offset and the index buffer's count) or `Unindexed` (with the recorded
vertex count, or 0 when no format was requested). -/
def Mesh.bind (m : Mesh) (formats : List VertexFormat) (vertex : List (Nat × Nat)) : BindResult :=
  match bindLoop m.vbufs formats 0 none vertex with
  | .panicked => .panicked
  | .incompatible s => .incompatible s
  | .finished s vc =>
    match m.ibuf with
    | some ibuf => .ok s (.indexed ⟨ibuf.bufferId, 0, ibuf.index_type⟩ ibuf.len)
    | none => .ok s (.unindexed (vc.getD 0))

/-- Trace of the matches performed by the `bind` loop before it stops
(either by exhausting the formats or at the first unmatched format): the
sequence of indices returned by `find_compatible_buffer`, each recorded
exactly as `bind` uses it (window-relative value used absolutely). -/
def matchTrace (vbufs : List VertexBuffer) : List VertexFormat → Nat → List Nat
  | [], _ => []
  | f :: rest, next =>
    match find_compatible_buffer (vbufs.drop next) f with
    | none => []
    | some index => index :: matchTrace vbufs rest (index + 1)

/-- Vertex counts of the buffers the `bind` loop resolves, in resolution
order (reading each matched buffer the way the source does). -/
def matchLens (vbufs : List VertexBuffer) (formats : List VertexFormat) (next : Nat) : List Nat :=
  (matchTrace vbufs formats next).map (fun i => (vbufs.getD i vbDefault).len)

/-- Example formats used by the concrete binding scenarios: `fmtA` has one
attribute, `fmtB` extends it with a second one; both have stride 12, so
`fmtB` is compatible with `fmtA` but not conversely, and `fmtA < fmtB`
under the lexicographic-by-attributes order the source sorts by. -/
def fmtA : VertexFormat := ⟨12, [⟨0, 0, 0⟩]⟩

/-- Second example format; see `fmtA`. -/
def fmtB : VertexFormat := ⟨12, [⟨0, 0, 0⟩, ⟨1, 1, 4⟩]⟩

/-- Example mesh for the binding scenario of the spec: vertex buffers
`[buf 0 : fmtA, buf 1 : fmtB]` with vertex count 100 each, no index
buffer. -/
def meshAB : Mesh := ⟨[⟨0, fmtA, 100⟩, ⟨1, fmtB, 100⟩], none, .triangleList⟩


/-- Commands recorded on the encoder (`RenderSubpassCommon`) by
`Bind::draw`: the slot table bind, the index-buffer bind, and the two draw
call forms with their explicit range arguments. -/
inductive DrawEvent where
  | bindVertexBuffers (set : List (Nat × Nat))
  | bindIndexBuffer (view : IndexBufferView)
  | drawIndexed (idxStart idxEnd : Nat) (baseVertex : Nat) (instStart instEnd : Nat)
  | draw (vStart vEnd : Nat) (instStart instEnd : Nat)
  deriving DecidableEq

/-- Embeds `Bind::draw` (mesh.rs lines 333-344): always bind the vertex
buffers first; then for `Indexed` bind the index view and issue
`draw_indexed(0..count, 0, 0..1)`, for `Unindexed` issue
`draw(0..count, 0..1)`.  The encoder is modelled as the list of commands
recorded, in order. -/
def Bind.draw (b : Bind) (vertex : List (Nat × Nat)) : List DrawEvent :=
  DrawEvent.bindVertexBuffers vertex ::
    match b with
    | .indexed index count => [.bindIndexBuffer index, .drawIndexed 0 count 0 0 1]
    | .unindexed count => [.draw 0 count 0 1]

/-- Embeds `mesh::Indices`: no indices, or a `u16`/`u32` element sequence
(elements as natural numbers, one entry per index). -/
inductive Indices where
  | none
  | u16 (elems : List Nat)
  | u32 (elems : List Nat)

/-- Modelled from the spec: `utils::cast_cow` (file `utils.rs` is not in
`src/`) reinterprets an element sequence as its raw bytes; for `u16`
elements this is two bytes per element (little endian). -/
def castU16 (elems : List Nat) : List Nat :=
  (elems.map (fun x => [x % 256, x / 256 % 256])).flatten

/-- Modelled from the spec: `utils::cast_cow` for `u32` elements, four
bytes per element (little endian). -/
def castU32 (elems : List Nat) : List Nat :=
  (elems.map (fun x => [x % 256, x / 256 % 256, x / 2 ^ 16 % 256, x / 2 ^ 24 % 256])).flatten

/-- Embeds `mesh::MeshBuilder`: staged vertex layers (raw bytes tagged
with a vertex format), an optional staged index layer (raw bytes tagged
with an index type) and the primitive topology. -/
structure MeshBuilder where
  vertices : List (List Nat × VertexFormat)
  indices : Option (List Nat × IndexType)
  prim : Primitive

/-- Embeds `MeshBuilder::new`: empty staging, triangle-list topology. -/
def MeshBuilder.new : MeshBuilder := ⟨[], Option.none, .triangleList⟩

/-- Embeds `MeshBuilder::set_indices`: `Indices::None` clears the staged
index layer; `U16`/`U32` replace it with the cast bytes and the matching
index type. -/
def MeshBuilder.set_indices (b : MeshBuilder) (i : Indices) : MeshBuilder :=
  { b with
    indices :=
      match i with
      | .none => Option.none
      | .u16 elems => some (castU16 elems, .u16)
      | .u32 elems => some (castU32 elems, .u32) }

/-- Embeds `MeshBuilder::with_indices`: the by-value variant, delegating to
`set_indices`. -/
def MeshBuilder.with_indices (b : MeshBuilder) (i : Indices) : MeshBuilder :=
  b.set_indices i

/-- Embeds `MeshBuilder::add_vertices` for already-cast byte data: push one
staged layer. -/
def MeshBuilder.add_vertices (b : MeshBuilder) (bytes : List Nat) (format : VertexFormat) : MeshBuilder :=
  { b with vertices := b.vertices ++ [(bytes, format)] }

/-- Embeds `MeshBuilder::set_prim_type` (and the `with_prim_type`
variant). -/
def MeshBuilder.set_prim_type (b : MeshBuilder) (prim : Primitive) : MeshBuilder :=
  { b with prim := prim }

/-- Embeds `hal::memory::Properties` as used here: always DEVICE_LOCAL. -/
inductive MemProps where
  | deviceLocal
  deriving DecidableEq

/-- Embeds the two `hal::buffer::Usage` values the builder passes:
`VERTEX | TRANSFER_DST` and `INDEX | TRANSFER_DST`. -/
inductive Usage where
  | vertexTransferDst
  | indexTransferDst
  deriving DecidableEq

/-- Embeds the two `hal::buffer::Access` values the builder passes:
`VERTEX_BUFFER_READ` and `INDEX_BUFFER_READ`. -/
inductive Access where
  | vertexBufferRead
  | indexBufferRead
  deriving DecidableEq

/-- Calls observed by the external resource factory, in order:
`create_buffer(size, properties, usage)`, `upload_buffer(access, buffer,
offset, bytes)` and `destroy_buffer(buffer)`. -/
inductive FEvent where
  | createBuffer (size : Nat) (props : MemProps) (usage : Usage)
  | uploadBuffer (access : Access) (buf : Nat) (offset : Nat) (bytes : List Nat)
  | destroyBuffer (buf : Nat)
  deriving DecidableEq

/-- True exactly on `destroy_buffer` calls. -/
def FEvent.isDestroy : FEvent → Bool
  | .destroyBuffer _ => true
  | _ => false

/-- Embeds the vertex-layer loop of `MeshBuilder::build` (mesh.rs lines
170-194): for each staged layer in order, `create_buffer(byte_len,
DEVICE_LOCAL, VERTEX | TRANSFER_DST)` then `upload_buffer` of the raw
bytes; the first factory error short-circuits via `?`.  `ctr` numbers the
factory calls (a successful create returns handle `ctr`); the returned
event list is what the factory observed, and `vertex_count` is
`byte_len as u32 / stride`. -/
def buildLayers (script : Nat → Option ε) : List (List Nat × VertexFormat) → Nat → Except ε (List VertexBuffer) × Nat × List FEvent
  | [], ctr => (.ok [], ctr, [])
  | (bytes, fmt) :: rest, ctr =>
    match script ctr with
    | some e => (.error e, ctr + 1, [.createBuffer (bytes.length % 2 ^ 64) .deviceLocal .vertexTransferDst])
    | Option.none =>
      match script (ctr + 1) with
      | some e =>
        (.error e, ctr + 2,
          [.createBuffer (bytes.length % 2 ^ 64) .deviceLocal .vertexTransferDst,
           .uploadBuffer .vertexBufferRead ctr 0 bytes])
      | Option.none =>
        match buildLayers script rest (ctr + 2) with
        | (.error e, c, evs) =>
          (.error e, c,
            .createBuffer (bytes.length % 2 ^ 64) .deviceLocal .vertexTransferDst ::
              .uploadBuffer .vertexBufferRead ctr 0 bytes :: evs)
        | (.ok vbs, c, evs) =>
          (.ok (⟨ctr, fmt, bytes.length % 2 ^ 32 / fmt.stride⟩ :: vbs), c,
            .createBuffer (bytes.length % 2 ^ 64) .deviceLocal .vertexTransferDst ::
              .uploadBuffer .vertexBufferRead ctr 0 bytes :: evs)

/-- Embeds the index part of `MeshBuilder::build` (mesh.rs lines 195-222):
nothing when no index layer is staged; otherwise create (INDEX |
TRANSFER_DST) and upload, with `index_count = byte_len as u32 / width`. -/
def buildIndices (script : Nat → Option ε) : Option (List Nat × IndexType) → Nat → Except ε (Option IndexBuffer) × Nat × List FEvent
  | Option.none, ctr => (.ok Option.none, ctr, [])
  | some (bytes, ty), ctr =>
    match script ctr with
    | some e => (.error e, ctr + 1, [.createBuffer (bytes.length % 2 ^ 64) .deviceLocal .indexTransferDst])
    | Option.none =>
      match script (ctr + 1) with
      | some e =>
        (.error e, ctr + 2,
          [.createBuffer (bytes.length % 2 ^ 64) .deviceLocal .indexTransferDst,
           .uploadBuffer .indexBufferRead ctr 0 bytes])
      | Option.none =>
        (.ok (some ⟨ctr, ty, bytes.length % 2 ^ 32 / indexWidth ty⟩), ctr + 2,
          [.createBuffer (bytes.length % 2 ^ 64) .deviceLocal .indexTransferDst,
           .uploadBuffer .indexBufferRead ctr 0 bytes])

/-- Embeds `MeshBuilder::build`: build all staged vertex layers in order,
then the staged index layer; the first error propagates unchanged and
stops everything after it.  Returns the result together with the number of
factory calls made and the factory's observed call list. -/
def MeshBuilder.build (b : MeshBuilder) (script : Nat → Option ε) : Except ε Mesh × Nat × List FEvent :=
  match buildLayers script b.vertices 0 with
  | (.error e, c, evs) => (.error e, c, evs)
  | (.ok vbs, c, evs) =>
    match buildIndices script b.indices c with
    | (.error e, c2, evs2) => (.error e, c2, evs ++ evs2)
    | (.ok ib, c2, evs2) => (.ok ⟨vbs, ib, b.prim⟩, c2, evs ++ evs2)

/-- Embeds `Mesh::dispose`: destroy the index buffer (when present), then
every vertex buffer, in order. -/
def Mesh.dispose (m : Mesh) : List FEvent :=
  (match m.ibuf with
   | some ibuf => [FEvent.destroyBuffer ibuf.bufferId]
   | Option.none => []) ++
    m.vbufs.map (fun vb => FEvent.destroyBuffer vb.bufferId)

/-- Number of factory calls a full successful build would make: two per
staged vertex layer plus two for a staged index layer. -/
def MeshBuilder.totalCalls (b : MeshBuilder) : Nat :=
  2 * b.vertices.length + match b.indices with
    | some _ => 2
    | Option.none => 0

/-- Runs the vertex-count `assert!` of the `bind` loop over a sequence of
matched vertex counts, starting from recorded count `vc`: true iff the
assertion never fires. -/
def lensOk : Option Nat → List Nat → Bool
  | _, [] => true
  | vc, x :: xs => (vc = Option.none ∨ vc = some x : Bool) && lensOk (some x) xs

/-- Example format with stride 16, hence incompatible with the stride-12
formats `fmtA`/`fmtB` in either direction. -/
def fmtC : VertexFormat := ⟨16, [⟨0, 0, 0⟩]⟩

/-- Example mesh with a single `fmtA` buffer, used to exercise the
`Incompatible` path of `bind`. -/
def meshA : Mesh := ⟨[⟨0, fmtA, 100⟩], Option.none, .triangleList⟩

/-- Example mesh like `meshAB` but with an index buffer of 9 indices. -/
def meshABIdx : Mesh := ⟨[⟨0, fmtA, 100⟩, ⟨1, fmtB, 100⟩], some ⟨2, .u32, 9⟩, .triangleList⟩

/-- Example mesh on which the `bind` vertex-count assertion fires: the
request `[fmtA, fmtB]` matches buffer 0 (count 100) and then buffer 2 at
window-relative position 1, which `bind` reads back as absolute position 1
(count 50). -/
def meshPanic : Mesh :=
  ⟨[⟨0, fmtA, 100⟩, ⟨1, fmtC, 50⟩, ⟨2, fmtB, 77⟩], Option.none, .triangleList⟩

/-- Factory script on which every call succeeds. -/
def okScript : Nat → Option Nat := fun _ => Option.none

/-- Factory script failing the third call (call number 2) with error 7. -/
def failScript : Nat → Option Nat := fun j => if j = 2 then some 7 else Option.none

/-- Example builder staging one 480-byte vertex layer of stride-12 format
`fmtA` and one 24-byte index layer of 4-byte indices. -/
def builder480 : MeshBuilder :=
  ⟨[(List.replicate 480 0, fmtA)], some (List.replicate 24 1, .u32), .triangleList⟩

/-- Example builder staging one 4-byte vertex layer and a 4-byte index
layer; with `failScript`, its index-buffer `create_buffer` call fails. -/
def builderFail : MeshBuilder :=
  ⟨[(List.replicate 4 0, fmtA)], some ([9, 9, 9, 9], .u16), .triangleList⟩




/-- C1.  The spec's binding scenario fails on the code: against a mesh with
vertex buffers `[buf 0 : fmtA, buf 1 : fmtB]` (vertex count 100 each, no
index buffer), `bind [fmtA, fmtB]` starting from an empty binding set does
return `Ok (Unindexed 100)` with exactly two appended entries of offset 0,
but both entries name buffer 0: `find_compatible_buffer`'s window-relative
index is used as an absolute index, so the second slot is `buf 0` again
instead of `buf 1` as the claim states. -/
theorem C1_bind_two_formats_duplicates_first_buffer :
    meshAB.bind [fmtA, fmtB] [] = .ok [(0, 0), (0, 0)] (.unindexed 100) ∧
    meshAB.bind [fmtA, fmtB] [] ≠ .ok [(0, 0), (1, 0)] (.unindexed 100) := by
  constructor
  · decide
  · decide

/-- C2.  The monotone-consumption invariant fails on the code: an
`Ok`-returning `bind` call (here on the indexed mesh `meshABIdx` with
sorted formats `[fmtA, fmtB]`) resolves both requested formats to the
buffer at position 0 — the match trace of positions as the source reads
them is `[0, 0]`, not strictly increasing, and buffer 0 is appended for
two different requested formats. -/
theorem C2_bind_ok_with_nonincreasing_positions :
    meshABIdx.bind [fmtA, fmtB] [] =
      .ok [(0, 0), (0, 0)] (.indexed ⟨2, 0, .u32⟩ 9) ∧
    matchTrace meshABIdx.vbufs [fmtA, fmtB] 0 = [0, 0] := by
  constructor
  · decide
  · decide

/-- C8.  `Bind::draw` always records the vertex-buffer bind with the
caller's slot table first; an `Indexed` bind then records exactly one
index-buffer bind with the recorded view and one indexed draw over
`0..count` with base vertex 0 and instance range `0..1`; an `Unindexed`
bind records exactly one non-indexed draw over `0..count` with instance
range `0..1` and no index-buffer bind. -/
theorem C8_draw_command_sequence :
    (∀ (view : IndexBufferView) (count : Nat) (vertex : List (Nat × Nat)),
      Bind.draw (.indexed view count) vertex =
        [.bindVertexBuffers vertex, .bindIndexBuffer view, .drawIndexed 0 count 0 0 1]) ∧
    (∀ (count : Nat) (vertex : List (Nat × Nat)),
      Bind.draw (.unindexed count) vertex =
        [.bindVertexBuffers vertex, .draw 0 count 0 1]) :=
  ⟨fun _ _ _ => rfl, fun _ _ => rfl⟩

/-- C10.  `set_indices` (and `with_indices`, which delegates to it) with
`Indices.none` sets the staged index layer to absent — clearing anything
staged earlier — so a subsequent successful build yields a mesh with no
index buffer; with a `u16`/`u32` sequence it replaces the staged layer
with the cast bytes and matching width. -/
theorem C10_set_indices_replaces_staged_layer (b : MeshBuilder) (l : List Nat) :
    ((b.set_indices Indices.none).indices = Option.none) ∧
    ((b.set_indices (Indices.u16 l)).indices = some (castU16 l, IndexType.u16)) ∧
    ((b.set_indices (Indices.u32 l)).indices = some (castU32 l, IndexType.u32)) ∧
    (∀ i : Indices, b.with_indices i = b.set_indices i) ∧
    (∀ (script : Nat → Option ε) (m : Mesh) (c : Nat) (evs : List FEvent),
      (b.set_indices Indices.none).build script = (.ok m, c, evs) → m.ibuf = Option.none) := by
  refine ⟨rfl, rfl, rfl, fun _ => rfl, ?_⟩
  intro script m c evs h
  unfold MeshBuilder.build at h
  split at h
  · exact absurd h (by simp)
  next vbs c1 evs1 heq =>
    simp only [MeshBuilder.set_indices, buildIndices] at h
    injection h with h1 h2
    injection h1 with h1
    rw [← h1]

/-- Witness for C10: a builder that first stages `u16` indices and then
sets `Indices.none` builds (under the all-success factory script) into a
mesh whose index buffer is absent. -/
theorem C10_witness :
    ((MeshBuilder.new.set_indices (Indices.u16 [1, 2, 3])).set_indices Indices.none).build okScript
        = (.ok ⟨[], Option.none, Primitive.triangleList⟩, 0, []) ∧
    (⟨[], Option.none, Primitive.triangleList⟩ : Mesh).ibuf = Option.none := by
  refine ⟨rfl, ?_⟩
  exact (C10_set_indices_replaces_staged_layer
    (MeshBuilder.new.set_indices (Indices.u16 [1, 2, 3])) []).2.2.2.2
    okScript ⟨[], Option.none, Primitive.triangleList⟩ 0 [] rfl

/-- Helper: when the `bind` loop exits with `Incompatible`, the binding set
it hands back is the caller's set extended by one entry per format matched
before the miss (recorded exactly as the source records them), and fewer
formats were matched than requested. -/
theorem bindLoop_incompatible_spec (vbufs : List VertexBuffer) :
    ∀ (formats : List VertexFormat) (next : Nat) (vc : Option Nat) (set s : List (Nat × Nat)),
      bindLoop vbufs formats next vc set = .incompatible s →
      s = set ++ (matchTrace vbufs formats next).map
          (fun i => ((vbufs.getD i vbDefault).bufferId, 0)) ∧
      (matchTrace vbufs formats next).length < formats.length := by
  intro formats
  induction formats with
  | nil =>
    intro next vc set s h
    simp [bindLoop] at h
  | cons f rest ih =>
    intro next vc set s h
    rw [bindLoop] at h
    cases hfind : find_compatible_buffer (vbufs.drop next) f with
    | none =>
      rw [hfind] at h
      injection h with h
      subst h
      simp [matchTrace, hfind]
    | some index =>
      rw [hfind] at h
      simp only at h
      split at h
      · obtain ⟨h1, h2⟩ := ih (index + 1) (some (vbufs.getD index vbDefault).len)
          (set ++ [((vbufs.getD index vbDefault).bufferId, 0)]) s h
        constructor
        · rw [h1]
          simp [matchTrace, hfind]
        · simpa [matchTrace, hfind] using Nat.succ_lt_succ h2
      · exact absurd h (by simp)

/-- C4.  Whenever `bind` (started from an empty binding set) returns
`Err(Incompatible)`, the binding set it leaves behind consists exactly of
the entries appended for the requested formats matched before the failing
one — the partial mutation is not rolled back — and strictly fewer formats
were matched than were requested (the loop stopped at the failing
format). -/
theorem C4_incompatible_keeps_partial_bindings (m : Mesh) (formats : List VertexFormat)
    (s : List (Nat × Nat)) (h : m.bind formats [] = .incompatible s) :
    s = (matchTrace m.vbufs formats 0).map
        (fun i => ((m.vbufs.getD i vbDefault).bufferId, 0)) ∧
    (matchTrace m.vbufs formats 0).length < formats.length := by
  unfold Mesh.bind at h
  cases hL : bindLoop m.vbufs formats 0 Option.none [] with
  | panicked => rw [hL] at h; exact absurd h (by simp)
  | incompatible s2 =>
    rw [hL] at h
    injection h with h
    subst h
    simpa using bindLoop_incompatible_spec m.vbufs formats 0 Option.none [] s2 hL
  | finished s2 vc =>
    rw [hL] at h
    cases hib : m.ibuf with
    | none => rw [hib] at h; exact absurd h (by simp)
    | some ibuf => rw [hib] at h; exact absurd h (by simp)

/-- Witness for C4: binding `meshA` (one `fmtA` buffer) against
`[fmtA, fmtC]` fails on the second format and leaves the entry appended
for the first format in the binding set. -/
theorem C4_witness :
    meshA.bind [fmtA, fmtC] [] = .incompatible [(0, 0)] ∧
    ([(0, 0)] = (matchTrace meshA.vbufs [fmtA, fmtC] 0).map
        (fun i => ((meshA.vbufs.getD i vbDefault).bufferId, 0)) ∧
      (matchTrace meshA.vbufs [fmtA, fmtC] 0).length < [fmtA, fmtC].length) :=
  ⟨by decide, C4_incompatible_keeps_partial_bindings meshA [fmtA, fmtC] [(0, 0)] (by decide)⟩

/-- Helper: `Mesh.bind` panics exactly when its format loop panics; the
index-buffer wrapping afterwards never panics. -/
theorem bind_panicked_iff (m : Mesh) (formats : List VertexFormat) (set : List (Nat × Nat)) :
    m.bind formats set = .panicked ↔ bindLoop m.vbufs formats 0 Option.none set = .panicked := by
  unfold Mesh.bind
  cases hL : bindLoop m.vbufs formats 0 Option.none set with
  | panicked => simp
  | incompatible s => simp
  | finished s vc =>
    cases hib : m.ibuf with
    | none => simp [hib]
    | some ibuf => simp [hib]

/-- Helper: match-count list of a request whose first format finds no
buffer in its window. -/
theorem matchLens_cons_none {vbufs : List VertexBuffer} {f : VertexFormat}
    {rest : List VertexFormat} {next : Nat}
    (hfind : find_compatible_buffer (vbufs.drop next) f = Option.none) :
    matchLens vbufs (f :: rest) next = [] := by
  unfold matchLens
  rw [matchTrace, hfind]
  rfl

/-- Helper: match-count list of a request whose first format finds a
buffer at (window-relative, recorded as absolute) position `index`. -/
theorem matchLens_cons_some {vbufs : List VertexBuffer} {f : VertexFormat}
    {rest : List VertexFormat} {next index : Nat}
    (hfind : find_compatible_buffer (vbufs.drop next) f = some index) :
    matchLens vbufs (f :: rest) next =
      (vbufs.getD index vbDefault).len :: matchLens vbufs rest (index + 1) := by
  unfold matchLens
  rw [matchTrace, hfind]
  rfl

/-- Helper: the `bind` loop panics exactly when running the vertex-count
assertion over the matched counts (from the recorded count `vc`) fails. -/
theorem bindLoop_panicked_iff (vbufs : List VertexBuffer) :
    ∀ (formats : List VertexFormat) (next : Nat) (vc : Option Nat) (set : List (Nat × Nat)),
      bindLoop vbufs formats next vc set = .panicked ↔
        lensOk vc (matchLens vbufs formats next) = false := by
  intro formats
  induction formats with
  | nil =>
    intro next vc set
    simp [bindLoop, matchLens, matchTrace, lensOk]
  | cons f rest ih =>
    intro next vc set
    rw [bindLoop]
    cases hfind : find_compatible_buffer (vbufs.drop next) f with
    | none =>
      rw [matchLens_cons_none hfind]
      simp [lensOk]
    | some index =>
      rw [matchLens_cons_some hfind]
      show (if vc = Option.none ∨ vc = some (vbufs.getD index vbDefault).len then
            bindLoop vbufs rest (index + 1) (some (vbufs.getD index vbDefault).len)
              (set ++ [((vbufs.getD index vbDefault).bufferId, 0)])
          else LoopResult.panicked) = LoopResult.panicked ↔
        (decide (vc = Option.none ∨ vc = some (vbufs.getD index vbDefault).len) &&
          lensOk (some (vbufs.getD index vbDefault).len) (matchLens vbufs rest (index + 1))) = false
      by_cases hvc : vc = Option.none ∨ vc = some (vbufs.getD index vbDefault).len
      · rw [if_pos hvc, decide_eq_true hvc, Bool.true_and,
          ih (index + 1) (some (vbufs.getD index vbDefault).len)
            (set ++ [((vbufs.getD index vbDefault).bufferId, 0)])]
      · rw [if_neg hvc, decide_eq_false hvc, Bool.false_and]
        simp

/-- Helper: the running vertex-count check started from a recorded count
`v` succeeds exactly when every later matched count equals `v`. -/
theorem lensOk_some_iff :
    ∀ (ls : List Nat) (v : Nat), lensOk (some v) ls = true ↔ ∀ a ∈ ls, a = v := by
  intro ls
  induction ls with
  | nil => simp [lensOk]
  | cons x xs ih =>
    intro v
    simp only [lensOk, Bool.and_eq_true, decide_eq_true_eq]
    constructor
    · rintro ⟨h1, h2⟩
      have hv : v = x := by
        rcases h1 with h | h
        · exact absurd h (by simp)
        · exact Option.some_injective _ h
      have htail := (ih x).mp h2
      intro a ha
      rcases List.mem_cons.mp ha with h | h
      · rw [h, hv]
      · rw [htail a h, hv]
    · intro h
      have hx : x = v := h x (List.mem_cons_self x xs)
      refine ⟨Or.inr (by rw [hx]), (ih x).mpr fun a ha => ?_⟩
      rw [h a (List.mem_cons_of_mem x ha), hx]

/-- Helper: the vertex-count check with no recorded count succeeds exactly
when all matched counts agree pairwise. -/
theorem lensOk_none_iff (ls : List Nat) :
    lensOk Option.none ls = true ↔ ∀ a ∈ ls, ∀ b ∈ ls, a = b := by
  cases ls with
  | nil => simp [lensOk]
  | cons x xs =>
    have hx : lensOk Option.none (x :: xs) = lensOk (some x) xs := by
      simp [lensOk]
    rw [hx, lensOk_some_iff]
    constructor
    · intro hall a ha b hb
      have hA : a = x := by
        rcases List.mem_cons.mp ha with h | h
        · exact h
        · exact hall a h
      have hB : b = x := by
        rcases List.mem_cons.mp hb with h | h
        · exact h
        · exact hall b h
      rw [hA, hB]
    · intro h a ha
      exact h a (List.mem_cons_of_mem x ha) x (List.mem_cons_self x xs)

/-- C5.  During one `bind` call (started from an empty binding set), if two
requested formats resolve to buffers whose recorded vertex counts differ,
`bind` aborts through the `assert!` (the `panicked` outcome) rather than
returning `Err(Incompatible)` or any `Ok` value; and when all counts the
call records agree, the assertion never fires. -/
theorem C5_bind_asserts_on_mismatched_counts (m : Mesh) (formats : List VertexFormat) :
    ((∃ a ∈ matchLens m.vbufs formats 0, ∃ b ∈ matchLens m.vbufs formats 0, a ≠ b) →
      m.bind formats [] = .panicked) ∧
    ((∀ a ∈ matchLens m.vbufs formats 0, ∀ b ∈ matchLens m.vbufs formats 0, a = b) →
      m.bind formats [] ≠ .panicked) := by
  constructor
  · rintro ⟨a, ha, b, hb, hne⟩
    rw [bind_panicked_iff, bindLoop_panicked_iff]
    cases hE : lensOk Option.none (matchLens m.vbufs formats 0) with
    | false => rfl
    | true => exact absurd ((lensOk_none_iff _).mp hE a ha b hb) hne
  · intro hall
    rw [Ne, bind_panicked_iff, bindLoop_panicked_iff]
    rw [(lensOk_none_iff _).mpr hall]
    simp

/-- Witness for C5: on `meshPanic`, the request `[fmtA, fmtB]` records
vertex counts 100 and then 50, so `bind` panics. -/
theorem C5_witness :
    (∃ a ∈ matchLens meshPanic.vbufs [fmtA, fmtB] 0,
      ∃ b ∈ matchLens meshPanic.vbufs [fmtA, fmtB] 0, a ≠ b) ∧
    meshPanic.bind [fmtA, fmtB] [] = .panicked :=
  ⟨by decide, (C5_bind_asserts_on_mismatched_counts meshPanic [fmtA, fmtB]).1 (by decide)⟩

/-- Helper: `position` succeeds when some member satisfies the
predicate. -/
theorem position_some_of_mem {p : α → Bool} {l : List α} {x : α}
    (hx : x ∈ l) (hp : p x = true) : ∃ n, position p l = some n := by
  induction l with
  | nil => cases hx
  | cons y ys ih =>
    by_cases hy : p y = true
    · exact ⟨0, by rw [position, if_pos hy]⟩
    · rcases List.mem_cons.mp hx with h | h
      · exact absurd (h ▸ hp) hy
      · obtain ⟨n, hn⟩ := ih h
        refine ⟨n + 1, ?_⟩
        rw [position, if_neg hy, hn]
        rfl

/-- Helper: the index `position` returns points at an element satisfying
the predicate. -/
theorem position_spec {p : α → Bool} :
    ∀ {l : List α} {n : Nat}, position p l = some n → ∃ x, l[n]? = some x ∧ p x = true := by
  intro l
  induction l with
  | nil => intro n h; exact absurd h (by simp [position])
  | cons y ys ih =>
    intro n h
    rw [position] at h
    by_cases hy : p y = true
    · rw [if_pos hy] at h
      injection h with h
      subst h
      exact ⟨y, by simp, hy⟩
    · rw [if_neg hy] at h
      cases hpos : position p ys with
      | none => rw [hpos] at h; exact absurd h (by simp)
      | some m =>
        rw [hpos] at h
        simp only [Option.map_some'] at h
        injection h with h
        subst h
        obtain ⟨x, hg, hpx⟩ := ih hpos
        exact ⟨x, by simpa using hg, hpx⟩

/-- Helper: in a list strictly sorted by offset, every member with offset
greater than the element at position `p` lies in the suffix starting at
`p`. -/
theorem mem_drop_of_offset_gt {l : List Attribute} {p : Nat} {x a : Attribute}
    (hl : l.Pairwise offLt) (hp : l[p]? = some x) (ha : a ∈ l)
    (hlt : x.offset < a.offset) : a ∈ l.drop p := by
  obtain ⟨q, hq⟩ := List.mem_iff_getElem?.mp ha
  obtain ⟨hplen, hpe⟩ := List.getElem?_eq_some.mp hp
  obtain ⟨hqlen, hqe⟩ := List.getElem?_eq_some.mp hq
  have hpq : p < q := by
    rcases Nat.lt_trichotomy q p with h | h | h
    · have hr := (List.pairwise_iff_getElem.mp hl) q p hqlen hplen h
      rw [hqe, hpe] at hr
      exact absurd hlt (by simp only [offLt] at hr; omega)
    · subst h
      rw [hqe] at hpe
      rw [hpe] at hlt
      exact absurd hlt (lt_irrefl _)
    · exact h
  refine List.getElem?_mem (n := q - p) ?_
  rw [List.getElem?_drop, Nat.add_sub_cancel' (Nat.le_of_lt hpq)]
  exact hq

/-- Helper: the forward scan of `is_compatible` succeeds whenever both
attribute lists are strictly sorted by offset and every wanted attribute
occurs in the searched window — even though the cursor advances only by
the found position `p`, not `p + 1`. -/
theorem compatLoop_complete :
    ∀ (rs ls : List Attribute) (skip : Nat),
      ls.Pairwise offLt → rs.Pairwise offLt →
      (∀ a ∈ rs, a ∈ ls.drop skip) → compatLoop ls skip rs = true := by
  intro rs
  induction rs with
  | nil => intro ls skip _ _ _; rfl
  | cons r rs ih =>
    intro ls skip hls hrs hsub
    have hr : r ∈ ls.drop skip := hsub r (List.mem_cons_self r rs)
    obtain ⟨p, hp⟩ := position_some_of_mem (p := fun l => decide (l = r)) hr (by simp)
    obtain ⟨x, hx, hxr⟩ := position_spec hp
    rw [of_decide_eq_true hxr] at hx
    rw [compatLoop, hp]
    show compatLoop ls (skip + p) rs = true
    refine ih ls (skip + p) hls (List.pairwise_cons.mp hrs).2 ?_
    intro a ha
    have haL : a ∈ ls.drop skip := hsub a (List.mem_cons_of_mem r ha)
    have hra : r.offset < a.offset := (List.pairwise_cons.mp hrs).1 a ha
    have hdl : (ls.drop skip).Pairwise offLt := hls.sublist (List.drop_sublist skip ls)
    have hmem : a ∈ (ls.drop skip).drop p := mem_drop_of_offset_gt hdl hx haL hra
    rw [List.drop_drop] at hmem
    exact hmem

/-- C3.  For formats whose attribute lists are strictly sorted by byte
offset (sorted ascending with unique offsets), equal strides and exact
containment of `want`'s attributes in `have`'s imply
`is_compatible have want = true`, despite the scan advancing its cursor by
the found position `p` rather than `p + 1`. -/
theorem C3_is_compatible_of_subset (hv wv : VertexFormat)
    (hsorted : hv.attributes.Pairwise offLt) (wsorted : wv.attributes.Pairwise offLt)
    (hstride : hv.stride = wv.stride)
    (hsub : ∀ a ∈ wv.attributes, a ∈ hv.attributes) :
    is_compatible hv wv = true := by
  unfold is_compatible
  rw [if_neg (fun h => h hstride)]
  exact compatLoop_complete wv.attributes hv.attributes 0 hsorted wsorted (by simpa using hsub)

/-- Witness for C3: `fmtB` (stride 12, two attributes) serves `fmtA`
(stride 12, the first of those attributes). -/
theorem C3_witness :
    (fmtB.attributes.Pairwise offLt ∧ fmtA.attributes.Pairwise offLt ∧
      fmtB.stride = fmtA.stride ∧ ∀ a ∈ fmtA.attributes, a ∈ fmtB.attributes) ∧
    is_compatible fmtB fmtA = true :=
  ⟨⟨by decide, by decide, by decide, by decide⟩,
    C3_is_compatible_of_subset fmtB fmtA (by decide) (by decide) (by decide) (by decide)⟩

/-- Helper: the vertex-layer loop of `build` never issues a
`destroy_buffer` call, whatever the factory answers. -/
theorem buildLayers_no_destroy (script : Nat → Option ε) :
    ∀ (layers : List (List Nat × VertexFormat)) (ctr : Nat),
      ∀ ev ∈ (buildLayers script layers ctr).2.2, ev.isDestroy = false := by
  intro layers
  induction layers with
  | nil => intro ctr ev hev; simp [buildLayers] at hev
  | cons layer rest ih =>
    intro ctr ev hev
    obtain ⟨bytes, fmt⟩ := layer
    rw [buildLayers] at hev
    cases hc : script ctr with
    | some e =>
      rw [hc] at hev
      simp at hev
      subst hev
      rfl
    | none =>
      rw [hc] at hev
      cases hc1 : script (ctr + 1) with
      | some e =>
        rw [hc1] at hev
        simp at hev
        rcases hev with h | h <;> (subst h; rfl)
      | none =>
        rw [hc1] at hev
        rcases hrec : buildLayers script rest (ctr + 2) with ⟨res, c, evs⟩
        rw [hrec] at hev
        have hh := ih (ctr + 2) ev
        rw [hrec] at hh
        cases res with
        | error e =>
          simp at hev
          rcases hev with h | h | h
          · subst h; rfl
          · subst h; rfl
          · exact hh h
        | ok vbs =>
          simp at hev
          rcases hev with h | h | h
          · subst h; rfl
          · subst h; rfl
          · exact hh h

/-- Helper: the index part of `build` never issues a `destroy_buffer`
call either. -/
theorem buildIndices_no_destroy (script : Nat → Option ε) :
    ∀ (opt : Option (List Nat × IndexType)) (ctr : Nat),
      ∀ ev ∈ (buildIndices script opt ctr).2.2, ev.isDestroy = false := by
  intro opt ctr ev hev
  cases opt with
  | none => simp [buildIndices] at hev
  | some layer =>
    obtain ⟨bytes, ty⟩ := layer
    rw [buildIndices] at hev
    cases hc : script ctr with
    | some e =>
      rw [hc] at hev
      simp at hev
      subst hev
      rfl
    | none =>
      rw [hc] at hev
      cases hc1 : script (ctr + 1) with
      | some e =>
        rw [hc1] at hev
        simp at hev
        rcases hev with h | h <;> (subst h; rfl)
      | none =>
        rw [hc1] at hev
        simp at hev
        rcases hev with h | h <;> (subst h; rfl)

/-- Helper: a successful vertex-layer loop derives each vertex count as
the layer's byte length (cast to `u32`) divided by the format stride. -/
theorem buildLayers_len_map (script : Nat → Option ε) :
    ∀ (layers : List (List Nat × VertexFormat)) (ctr : Nat) (vbs : List VertexBuffer)
      (c : Nat) (evs : List FEvent),
      buildLayers script layers ctr = (.ok vbs, c, evs) →
      vbs.map VertexBuffer.len = layers.map (fun p => p.1.length % 2 ^ 32 / p.2.stride) := by
  intro layers
  induction layers with
  | nil =>
    intro ctr vbs c evs h
    rw [buildLayers] at h
    simp at h
    rw [h.1]
    rfl
  | cons layer rest ih =>
    intro ctr vbs c evs h
    obtain ⟨bytes, fmt⟩ := layer
    rw [buildLayers] at h
    cases hc : script ctr with
    | some e => rw [hc] at h; simp at h
    | none =>
      rw [hc] at h
      cases hc1 : script (ctr + 1) with
      | some e => rw [hc1] at h; simp at h
      | none =>
        rw [hc1] at h
        rcases hrec : buildLayers script rest (ctr + 2) with ⟨res, c2, evs2⟩
        rw [hrec] at h
        cases res with
        | error e => simp at h
        | ok vbs2 =>
          simp only [Prod.mk.injEq] at h
          obtain ⟨h1, -, -⟩ := h
          injection h1 with h1
          rw [← h1, List.map_cons, List.map_cons, ih (ctr + 2) vbs2 c2 evs2 hrec]

/-- Helper: when every factory call a layer list needs succeeds, the
vertex-layer loop succeeds, making exactly two calls per layer. -/
theorem buildLayers_ok_of_script (script : Nat → Option ε) :
    ∀ (layers : List (List Nat × VertexFormat)) (ctr : Nat),
      (∀ j, ctr ≤ j → j < ctr + 2 * layers.length → script j = Option.none) →
      ∃ vbs evs, buildLayers script layers ctr = (.ok vbs, ctr + 2 * layers.length, evs) ∧
        evs.length = 2 * layers.length := by
  intro layers
  induction layers with
  | nil =>
    intro ctr _
    exact ⟨[], [], by simp [buildLayers], rfl⟩
  | cons layer rest ih =>
    intro ctr hall
    obtain ⟨bytes, fmt⟩ := layer
    simp only [List.length_cons] at hall ⊢
    have hc : script ctr = Option.none := hall ctr (Nat.le_refl ctr) (by omega)
    have hc1 : script (ctr + 1) = Option.none := hall (ctr + 1) (by omega) (by omega)
    obtain ⟨vbs, evs, heq, hlen⟩ := ih (ctr + 2) (fun j hj1 hj2 => hall j (by omega) (by omega))
    refine ⟨⟨ctr, fmt, bytes.length % 2 ^ 32 / fmt.stride⟩ :: vbs,
      .createBuffer (bytes.length % 2 ^ 64) .deviceLocal .vertexTransferDst ::
        .uploadBuffer .vertexBufferRead ctr 0 bytes :: evs, ?_, ?_⟩
    · rw [buildLayers, hc, hc1, heq]
      simp only [Prod.mk.injEq, and_true, true_and, eq_self_iff_true]
      omega
    · simp only [List.length_cons, hlen]
      omega

/-- Helper: when the first failing factory call lies within the calls the
layer list needs, the vertex-layer loop stops right there, propagating the
error, having made exactly the calls up to and including the failing
one. -/
theorem buildLayers_err_of_script (script : Nat → Option ε) (k : Nat) (e : ε) :
    ∀ (layers : List (List Nat × VertexFormat)) (ctr : Nat),
      ctr ≤ k → k < ctr + 2 * layers.length → script k = some e →
      (∀ j, ctr ≤ j → j < k → script j = Option.none) →
      ∃ evs, buildLayers script layers ctr = (.error e, k + 1, evs) ∧
        evs.length = k + 1 - ctr := by
  intro layers
  induction layers with
  | nil =>
    intro ctr hk1 hk2 _ _
    simp at hk2
    omega
  | cons layer rest ih =>
    intro ctr hk1 hk2 hfail hpre
    obtain ⟨bytes, fmt⟩ := layer
    simp only [List.length_cons] at hk2
    by_cases h0 : k = ctr
    · subst h0
      refine ⟨[.createBuffer (bytes.length % 2 ^ 64) .deviceLocal .vertexTransferDst], ?_, ?_⟩
      · rw [buildLayers, hfail]
      · simp
    · have hc : script ctr = Option.none := hpre ctr (Nat.le_refl ctr) (by omega)
      by_cases h1 : k = ctr + 1
      · subst h1
        refine ⟨[.createBuffer (bytes.length % 2 ^ 64) .deviceLocal .vertexTransferDst,
          .uploadBuffer .vertexBufferRead ctr 0 bytes], ?_, ?_⟩
        · rw [buildLayers, hc, hfail]
        · simp
          omega
      · have hc1 : script (ctr + 1) = Option.none := hpre (ctr + 1) (by omega) (by omega)
        obtain ⟨evs, heq, hlen⟩ :=
          ih (ctr + 2) (by omega) (by omega) hfail (fun j hj1 hj2 => hpre j (by omega) hj2)
        refine ⟨.createBuffer (bytes.length % 2 ^ 64) .deviceLocal .vertexTransferDst ::
          .uploadBuffer .vertexBufferRead ctr 0 bytes :: evs, ?_, ?_⟩
        · rw [buildLayers, hc, hc1, heq]
        · simp only [List.length_cons, hlen]
          omega

/-- Helper: shape of a successful index part: no staged layer gives no
index buffer; a staged layer gives an index buffer whose count is the byte
length (cast to `u32`) divided by the index width. -/
theorem buildIndices_ok_shape (script : Nat → Option ε) (opt : Option (List Nat × IndexType))
    (ctr : Nat) (ib : Option IndexBuffer) (c : Nat) (evs : List FEvent)
    (h : buildIndices script opt ctr = (.ok ib, c, evs)) :
    (opt = Option.none → ib = Option.none) ∧
    (∀ bytes ty, opt = some (bytes, ty) →
      ib = some ⟨ctr, ty, bytes.length % 2 ^ 32 / indexWidth ty⟩) := by
  cases opt with
  | none =>
    simp only [buildIndices, Prod.mk.injEq] at h
    obtain ⟨h1, -, -⟩ := h
    injection h1 with h1
    exact ⟨fun _ => h1.symm, fun bytes ty hsome => by simp at hsome⟩
  | some layer =>
    obtain ⟨bytes0, ty0⟩ := layer
    rw [buildIndices] at h
    cases hc : script ctr with
    | some e => rw [hc] at h; simp at h
    | none =>
      rw [hc] at h
      cases hc1 : script (ctr + 1) with
      | some e => rw [hc1] at h; simp at h
      | none =>
        rw [hc1] at h
        simp only [Prod.mk.injEq] at h
        obtain ⟨h1, -, -⟩ := h
        injection h1 with h1
        refine ⟨fun hn => by simp at hn, ?_⟩
        intro bytes ty hsome
        injection hsome with hsome
        injection hsome with hb hty
        subst hb
        subst hty
        exact h1.symm

/-- Helper: when the first failing factory call falls on the staged index
layer's two calls, the index part stops there with that error. -/
theorem buildIndices_err_of_script (script : Nat → Option ε) (bytes : List Nat)
    (ty : IndexType) (ctr k : Nat) (e : ε)
    (hk1 : ctr ≤ k) (hk2 : k < ctr + 2) (hfail : script k = some e)
    (hpre : ∀ j, ctr ≤ j → j < k → script j = Option.none) :
    ∃ evs, buildIndices script (some (bytes, ty)) ctr = (.error e, k + 1, evs) ∧
      evs.length = k + 1 - ctr := by
  by_cases h0 : k = ctr
  · subst h0
    refine ⟨[.createBuffer (bytes.length % 2 ^ 64) .deviceLocal .indexTransferDst], ?_, by simp⟩
    rw [buildIndices, hfail]
  · have hc : script ctr = Option.none := hpre ctr (Nat.le_refl _) (by omega)
    have h1 : k = ctr + 1 := by omega
    subst h1
    refine ⟨[.createBuffer (bytes.length % 2 ^ 64) .deviceLocal .indexTransferDst,
      .uploadBuffer .indexBufferRead ctr 0 bytes], ?_, by simp; omega⟩
    rw [buildIndices, hc, hfail]

/-- C6.  On a successful build, every vertex buffer's count is the staged
layer's byte length divided by the format stride (truncating division; the
`as u32` cast is invisible for layers under 4 GiB, hypothesis `hsmall`),
and the index buffer's count, when an index layer is staged, is the byte
length divided by the index width (2 or 4). -/
theorem C6_build_divides_lengths (b : MeshBuilder) (script : Nat → Option ε)
    (m : Mesh) (c : Nat) (evs : List FEvent)
    (hok : b.build script = (.ok m, c, evs))
    (hsmall : ∀ p ∈ b.vertices, p.1.length < 2 ^ 32) :
    m.vbufs.map VertexBuffer.len = b.vertices.map (fun p => p.1.length / p.2.stride) ∧
    (b.indices = Option.none → m.ibuf = Option.none) ∧
    (∀ bytes ty, b.indices = some (bytes, ty) → bytes.length < 2 ^ 32 →
      ∃ ib, m.ibuf = some ib ∧ ib.len = bytes.length / indexWidth ty) := by
  unfold MeshBuilder.build at hok
  rcases hL : buildLayers script b.vertices 0 with ⟨res1, c1, evs1⟩
  rw [hL] at hok
  cases res1 with
  | error e => simp at hok
  | ok vbs =>
    simp only at hok
    rcases hI : buildIndices script b.indices c1 with ⟨res2, c2, evs2⟩
    rw [hI] at hok
    cases res2 with
    | error e => simp at hok
    | ok ib =>
      simp only [Prod.mk.injEq] at hok
      obtain ⟨h1, -, -⟩ := hok
      injection h1 with h1
      subst h1
      obtain ⟨hnone, hsome⟩ := buildIndices_ok_shape script b.indices c1 ib c2 evs2 hI
      refine ⟨?_, fun hbn => hnone hbn, ?_⟩
      · have hmap := buildLayers_len_map script b.vertices 0 vbs c1 evs1 hL
        show vbs.map VertexBuffer.len = _
        rw [hmap]
        apply List.map_congr_left
        intro p hp
        rw [Nat.mod_eq_of_lt (hsmall p hp)]
      · intro bytes ty hb hby
        refine ⟨⟨c1, ty, bytes.length % 2 ^ 32 / indexWidth ty⟩, hsome bytes ty hb, ?_⟩
        show bytes.length % 2 ^ 32 / indexWidth ty = bytes.length / indexWidth ty
        rw [Nat.mod_eq_of_lt hby]

set_option maxRecDepth 10000 in
/-- Witness for C6: one 480-byte layer of stride-12 `fmtA` and one 24-byte
`u32` index layer build into counts 40 = 480 / 12 and 6 = 24 / 4. -/
theorem C6_witness :
    builder480.build okScript =
      (Except.ok (⟨[⟨0, fmtA, 40⟩], some ⟨2, IndexType.u32, 6⟩, Primitive.triangleList⟩ : Mesh), 4,
        [.createBuffer 480 .deviceLocal .vertexTransferDst,
         .uploadBuffer .vertexBufferRead 0 0 (List.replicate 480 0),
         .createBuffer 24 .deviceLocal .indexTransferDst,
         .uploadBuffer .indexBufferRead 2 0 (List.replicate 24 1)]) ∧
    ((⟨[⟨0, fmtA, 40⟩], some ⟨2, IndexType.u32, 6⟩, Primitive.triangleList⟩ : Mesh).vbufs.map
        VertexBuffer.len = builder480.vertices.map (fun p => p.1.length / p.2.stride) ∧
      (builder480.indices = Option.none →
        (⟨[⟨0, fmtA, 40⟩], some ⟨2, IndexType.u32, 6⟩,
          Primitive.triangleList⟩ : Mesh).ibuf = Option.none) ∧
      (∀ bytes ty, builder480.indices = some (bytes, ty) → bytes.length < 2 ^ 32 →
        ∃ ib, (⟨[⟨0, fmtA, 40⟩], some ⟨2, IndexType.u32, 6⟩,
          Primitive.triangleList⟩ : Mesh).ibuf = some ib ∧
            ib.len = bytes.length / indexWidth ty)) :=
  ⟨by rfl,
    C6_build_divides_lengths builder480 okScript
      ⟨[⟨0, fmtA, 40⟩], some ⟨2, IndexType.u32, 6⟩, Primitive.triangleList⟩ 4
      [.createBuffer 480 .deviceLocal .vertexTransferDst,
       .uploadBuffer .vertexBufferRead 0 0 (List.replicate 480 0),
       .createBuffer 24 .deviceLocal .indexTransferDst,
       .uploadBuffer .indexBufferRead 2 0 (List.replicate 24 1)]
      (by rfl) (by decide)⟩

/-- C7.  When the factory's first failure is call `k` (within the calls
the staged layers need), `build` returns exactly that error, has made
exactly the calls up to and including the failing one (so no later layer
is processed), and has issued no `destroy_buffer` call for the buffers
already created. -/
theorem C7_build_first_error_propagates (b : MeshBuilder) (script : Nat → Option ε)
    (k : Nat) (e : ε) (hk : k < b.totalCalls) (hfail : script k = some e)
    (hpre : ∀ j, j < k → script j = Option.none) :
    ∃ evs, b.build script = (.error e, k + 1, evs) ∧ evs.length = k + 1 ∧
      ∀ ev ∈ evs, ev.isDestroy = false := by
  unfold MeshBuilder.totalCalls at hk
  by_cases hkv : k < 2 * b.vertices.length
  · obtain ⟨evs, heq, hlen⟩ := buildLayers_err_of_script script k e b.vertices 0
      (Nat.zero_le k) (by omega) hfail (fun j _ hj2 => hpre j hj2)
    refine ⟨evs, ?_, by omega, ?_⟩
    · unfold MeshBuilder.build
      rw [heq]
    · intro ev hev
      have hnd := buildLayers_no_destroy script b.vertices 0 ev
      rw [heq] at hnd
      exact hnd hev
  · cases hbi : b.indices with
    | none => rw [hbi] at hk; simp only at hk; omega
    | some layer =>
      obtain ⟨bytes, ty⟩ := layer
      rw [hbi] at hk
      simp only at hk
      obtain ⟨vbs, evs1, heq1, hlen1⟩ := buildLayers_ok_of_script script b.vertices 0
        (fun j _ hj2 => hpre j (by omega))
      obtain ⟨evs2, heq2, hlen2⟩ := buildIndices_err_of_script script bytes ty
        (0 + 2 * b.vertices.length) k e (by omega) (by omega) hfail
        (fun j hj1 hj2 => hpre j hj2)
      refine ⟨evs1 ++ evs2, ?_, ?_, ?_⟩
      · unfold MeshBuilder.build
        rw [heq1, hbi]
        simp only
        rw [heq2]
      · rw [List.length_append]
        omega
      · intro ev hev
        rcases List.mem_append.mp hev with h | h
        · have hnd := buildLayers_no_destroy script b.vertices 0 ev
          rw [heq1] at hnd
          exact hnd h
        · have hnd := buildIndices_no_destroy script (some (bytes, ty))
            (0 + 2 * b.vertices.length) ev
          rw [heq2] at hnd
          exact hnd h

/-- Witness for C7: with the factory failing call 2 (the index layer's
`create_buffer`) with error 7, `builderFail.build` stops after 3 calls,
returns error 7 and destroys nothing. -/
theorem C7_witness :
    2 < builderFail.totalCalls ∧
    ∃ evs, builderFail.build failScript = (.error 7, 3, evs) ∧ evs.length = 3 ∧
      ∀ ev ∈ evs, ev.isDestroy = false :=
  ⟨by decide,
    C7_build_first_error_propagates builderFail failScript 2 7 (by decide) (by decide)
      (by decide)⟩

end GfxMesh
